import Mathlib

/-!
Verification development for the `telegram-all-in-voo` ledger bot
(`src/main.rs`, `src/db.rs`).

Modelling conventions:
* Rust `i64` values are Lean `Int`s; where the source performs `i64`
  arithmetic that can overflow (`decimal_to_cents`), each operation is
  wrapped explicitly with `wrap64`, matching two's-complement wrap-around
  of release builds.
* Strings are handled at the character-list level (`List Char`); the regex
  classes `\d` and `\s` are modelled as `Char.isDigit` / `Char.isWhitespace`
  (the regex crate defaults are Unicode classes; every input reasoned about
  here is ASCII, where the two coincide).
* SQLite state is a pair of row lists in insertion order; the
  autoincrement `id` order of `entries` is the list order.
-/

/- ### Amount parsing (src/main.rs, `parse_amount_and_reason` / `decimal_to_cents`) -/

/-- The distinct failure messages produced by `parse_amount_and_reason` and
`decimal_to_cents` in src/main.rs.  `missingAmount` = `anyhow!("Missing amount")`,
`badAmountFormat` = `anyhow!("Bad amount format")`, `tooManyDecimals` =
`anyhow!("Too many decimal places")`, `invalidNumber` = `anyhow!("Invalid number")`,
and `intParseError` stands for a propagated `std::num::ParseIntError`
(from `whole.parse::<i64>()?` / `f.parse::<i64>()?`). -/
inductive ParseErr where
  | missingAmount
  | badAmountFormat
  | tooManyDecimals
  | invalidNumber
  | intParseError
  deriving DecidableEq, Repr

/-- Two's-complement wrap-around into the `i64` range `[-2^63, 2^63 - 1]`,
the release-mode semantics of overflowing Rust integer arithmetic. -/
def wrap64 (x : Int) : Int := (x + 2 ^ 63) % 2 ^ 64 - 2 ^ 63

/-- Value of a digit string, most significant digit first
(the accumulator loop inside integer parsing). -/
def digitsVal (l : List Char) : Nat :=
  l.foldl (fun a c => a * 10 + (c.toNat - '0'.toNat)) 0

/-- Rust `str::parse::<i64>` (`i64::from_str`): an optional single leading
`+`/`-`, then one or more ASCII digits, value within the `i64` range;
anything else is a `ParseIntError` (`none` here). -/
def parseI64 (s : List Char) : Option Int :=
  match s with
  | [] => none
  | c :: rest =>
    let neg := c == '-'
    let digits := if c == '-' || c == '+' then rest else c :: rest
    if digits = [] then none
    else if digits.all Char.isDigit then
      let n : Int := (digitsVal digits : Int)
      if neg then (if n ≤ 2 ^ 63 then some (-n) else none)
      else (if n ≤ 2 ^ 63 - 1 then some n else none)
    else none

/-- Rust `str::trim` on a character list: drop leading and trailing
whitespace. -/
def trimChars (s : List Char) : List Char :=
  ((s.dropWhile Char.isWhitespace).reverse.dropWhile Char.isWhitespace).reverse

/-- Rust `str.split('.')`: `[] ↦ [""]`, separators produce empty fields. -/
def splitOnDot : List Char → List (List Char)
  | [] => [[]]
  | c :: rest =>
    if c = '.' then [] :: splitOnDot rest
    else
      match splitOnDot rest with
      | [] => [[c]]
      | p :: ps => (c :: p) :: ps

/-- src/main.rs `decimal_to_cents`: strip a leading sign, split on `.`,
`whole * 100 (+ frac)`, sign applied last.  The multiplications/additions/
negation are `i64` operations, hence `wrap64`-wrapped; the integer parses
use `?`, modelled by `ParseErr.intParseError`. -/
def decimal_to_cents (s : List Char) : Except ParseErr Int :=
  let neg := s.head? == some '-'
  let s2 := s.dropWhile (fun c => c == '+' || c == '-')
  match splitOnDot s2 with
  | [whole] =>
    match parseI64 whole with
    | none => .error .intParseError
    | some w =>
      let cents := wrap64 (w * 100)
      .ok (if neg then wrap64 (-cents) else cents)
  | [whole, frac] =>
    let f := if frac.length = 1 then frac ++ ['0'] else frac
    if f.length > 2 then .error .tooManyDecimals
    else
      match parseI64 whole, parseI64 f with
      | some w, some fv =>
        let cents := wrap64 (wrap64 (w * 100) + fv)
        .ok (if neg then wrap64 (-cents) else cents)
      | _, _ => .error .intParseError
  | _ => .error .invalidNumber

/-- The optional fractional part of the amount regex, `(?:[.,]\d{1,2})?`,
matched greedily at the start of `rest`: a separator followed by one or two
digits (two when available), or nothing. -/
def fracTake : List Char → List Char
  | c :: d1 :: tail =>
    if (c == '.' || c == ',') && d1.isDigit then
      match tail with
      | d2 :: _ => if d2.isDigit then [c, d1, d2] else [c, d1]
      | [] => [c, d1]
    else []
  | _ => []

/-- Captures of `^\s*(\d+(?:[.,]\d{1,2})?)\s*(.*)$` on an already-trimmed
haystack: group 1 is the greedy leading digit run plus optional fraction;
`\s*` then greedily eats whitespace, and `(.*)$` (where `.` excludes `\n`)
matches the remainder only when it is newline-free.  Returns
`(group1, group2)` or `none`. -/
def matchUnsigned (s : List Char) : Option (List Char × List Char) :=
  let whole := s.takeWhile Char.isDigit
  if whole = [] then none
  else
    let rest := s.drop whole.length
    let frac := fracTake rest
    let note := (rest.drop frac.length).dropWhile Char.isWhitespace
    if note.contains '\n' then none
    else some (whole ++ frac, note)

/-- Captures of `^\s*([+-]?\d+(?:[.,]\d{1,2})?)\s*(.*)$`: an optional sign
prefixed to the unsigned pattern (if the sign is present but no digits
follow, backtracking to the empty sign still fails on `\d+`). -/
def matchSigned (s : List Char) : Option (List Char × List Char) :=
  match s with
  | [] => none
  | c :: rest =>
    if c == '+' || c == '-' then
      match matchUnsigned rest with
      | some (g1, g2) => some (c :: g1, g2)
      | none => none
    else matchUnsigned (c :: rest)

/-- src/main.rs `parse_amount_and_reason`: trim, reject empty input, match
the (signed or unsigned) amount regex, replace `,` by `.` in group 1, take
the trimmed non-empty group 2 as the optional reason, and convert the
amount with `decimal_to_cents`. -/
def parse_amount_and_reason (input : String) (allow_signed : Bool) :
    Except ParseErr (Int × Option String) :=
  let s := trimChars input.toList
  if s = [] then .error .missingAmount
  else
    match (if allow_signed then matchSigned s else matchUnsigned s) with
    | none => .error .badAmountFormat
    | some (g1, g2) =>
      let amount_str := g1.map (fun c => if c == ',' then '.' else c)
      let reasonT := trimChars g2
      let reason : Option String := if reasonT = [] then none else some (String.mk reasonT)
      match decimal_to_cents amount_str with
      | .error e => .error e
      | .ok cents => .ok (cents, reason)

example : parse_amount_and_reason "12" false = .ok (1200, none) := by rfl
example : parse_amount_and_reason "12.3" false = .ok (1230, none) := by rfl
example : parse_amount_and_reason "-3.50" true = .ok (-350, none) := by rfl
example : parse_amount_and_reason "5 lunch" false = .ok (500, some "lunch") := by rfl
example : parse_amount_and_reason "12.345" false = .ok (1234, some "5") := by rfl
example : parse_amount_and_reason "+5" false = .error .badAmountFormat := by rfl
example : parse_amount_and_reason "abc" false = .error .badAmountFormat := by rfl
example : parse_amount_and_reason "92233720368547758.08" false
    = .ok (-9223372036854775808, none) := by rfl
example : parse_amount_and_reason "9223372036854775808" false
    = .error .intParseError := by rfl

/- ### The persistent store (src/db.rs) -/

/-- A row of the `entries` table (src/db.rs `Entry`, plus its owner).
The autoincrement `id` is the position in `DbState.entries`. -/
structure EntryRow where
  user_id : String
  amount_cents : Int
  kind : String
  reason : Option String
  created_at : String
  deriving DecidableEq, Repr

/-- A row of the `users` table (schema in src/db.rs `init`). -/
structure UserRow where
  id : String
  tg_user_id : Int
  tg_username : Option String
  first_name : String
  last_name : Option String
  created_at : String
  deriving DecidableEq, Repr

/-- The SQLite database: both tables, rows in insertion order. -/
structure DbState where
  users : List UserRow
  entries : List EntryRow
  deriving DecidableEq, Repr

/-- src/db.rs `Db::add_entry`: unconditionally INSERT one entries row
(no validation happens at this layer). -/
def add_entry (st : DbState) (user_id : String) (amount_cents : Int) (kind : String)
    (reason : Option String) (now : String) : DbState :=
  { st with entries := st.entries ++ [⟨user_id, amount_cents, kind, reason, now⟩] }

/-- src/db.rs `Db::total_cents`:
`SELECT COALESCE(SUM(amount_cents),0) FROM entries WHERE user_id = ?`. -/
def total_cents (st : DbState) (user_id : String) : Int :=
  ((st.entries.filter (fun e => e.user_id == user_id)).map (fun e => e.amount_cents)).sum

/-- Error of src/db.rs `Db::ensure_user`'s INSERT when a uniqueness
constraint of the `users` table is violated (`id` PRIMARY KEY,
`tg_user_id UNIQUE`); propagated by `?`. -/
inductive DbErr where
  | uniqueViolation
  deriving DecidableEq, Repr

/-- The first round trip of `Db::ensure_user`:
`SELECT id FROM users WHERE tg_user_id = ?` (`fetch_optional`). -/
def selectUser (st : DbState) (tg_user_id : Int) : Option String :=
  (st.users.find? (fun r => r.tg_user_id == tg_user_id)).map (fun r => r.id)

/-- The second round trip of `Db::ensure_user`: `INSERT INTO users(...)`,
which fails (constraint violation) when a row with the same `tg_user_id`
(or the same primary-key `id`) already exists. -/
def insertUser (st : DbState) (tg_user_id : Int) (tg_username : Option String)
    (first_name : String) (last_name : Option String) (newId : String) (now : String) :
    Except DbErr DbState :=
  if st.users.any (fun r => r.tg_user_id == tg_user_id || r.id == newId) then
    .error .uniqueViolation
  else
    .ok { st with users := st.users ++ [⟨newId, tg_user_id, tg_username, first_name, last_name, now⟩] }

/-- src/db.rs `Db::ensure_user`: return the existing row's id if the
`tg_user_id` is known (writing nothing), otherwise INSERT a fresh row and
return its new id.  The nondeterministically generated `Uuid::new_v4()`
and timestamp are passed as the `newId` / `now` arguments. -/
def ensure_user (st : DbState) (tg_user_id : Int) (tg_username : Option String)
    (first_name : String) (last_name : Option String) (newId : String) (now : String) :
    Except DbErr (DbState × String) :=
  match selectUser st tg_user_id with
  | some id => .ok (st, id)
  | none =>
    match insertUser st tg_user_id tg_username first_name last_name newId now with
    | .ok st2 => .ok (st2, newId)
    | .error e => .error e

/-- Modelled from the spec: `Db::history_total_cents` is called at
src/main.rs:175,193 but its definition is missing from src/db.rs.  Spec §3:
`history_total(user) = Σ |amount_cents|` over that user's `archive`
entries. -/
def history_total_cents (st : DbState) (user_id : String) : Int :=
  ((st.entries.filter (fun e => e.user_id == user_id && e.kind == "archive")).map
    (fun e => |e.amount_cents|)).sum

/-- Spec §3: `grand_total(user) = current_balance(user) + history_total(user)`. -/
def grand_total (st : DbState) (user_id : String) : Int :=
  total_cents st user_id + history_total_cents st user_id

/-- The failure of the archive operation when there is nothing to move
(spec §4.4 / §7, `NothingToArchive`). -/
inductive CoreErr where
  | nothingToArchive
  deriving DecidableEq, Repr

/-- Modelled from the spec: `Db::archive_user_entries` is called at
src/main.rs:174 but its definition is missing from src/db.rs.  Spec §4.4:
atomically read `current_balance`; if zero fail with `NothingToArchive`
(writing nothing); otherwise append a single `archive` entry with
`amount_cents = -current_balance` and return the magnitude moved. -/
def archive_user_entries (st : DbState) (user_id : String) (now : String) :
    Except CoreErr (DbState × Int) :=
  let bal := total_cents st user_id
  if bal = 0 then .error .nothingToArchive
  else .ok (add_entry st user_id (-bal) "archive" none now, |bal|)

/- ### Command handlers (src/main.rs, `handle_command`) -/

/-- Outcome of the `/save` and `/adjust` branches of `handle_command`:
either the out-of-policy rejection reply (`InvalidEntry` in the spec's
taxonomy — the handler replies and writes nothing) or the recorded-entry
reply carrying the new total. -/
inductive EntryReply where
  | invalidEntry
  | recorded (total : Int)
  deriving DecidableEq, Repr

/-- src/main.rs `handle_command`, `Command::Save` branch, after parsing:
reject non-positive amounts, otherwise `add_entry(.., "save", ..)` and
report the new total. -/
def handleSave (st : DbState) (user_id : String) (amount_cents : Int)
    (reason : Option String) (now : String) : DbState × EntryReply :=
  if amount_cents ≤ 0 then (st, .invalidEntry)
  else
    let st2 := add_entry st user_id amount_cents "save" reason now
    (st2, .recorded (total_cents st2 user_id))

/-- src/main.rs `handle_command`, `Command::Adjust` branch, after parsing:
reject a zero delta, otherwise `add_entry(.., "adjust", ..)` and report the
new total. -/
def handleAdjust (st : DbState) (user_id : String) (delta_cents : Int)
    (reason : Option String) (now : String) : DbState × EntryReply :=
  if delta_cents = 0 then (st, .invalidEntry)
  else
    let st2 := add_entry st user_id delta_cents "adjust" reason now
    (st2, .recorded (total_cents st2 user_id))

/-- Outcome of the `/allinvoo` branch: the informational nothing-to-invest
reply, the invested reply (moved amount and history total), or a store
error propagated by `?`. -/
inductive AllinvooReply where
  | nothingToInvest
  | invested (moved : Int) (history : Int)
  | storeFailed (e : CoreErr)
  deriving DecidableEq, Repr

/-- src/main.rs `handle_command`, `Command::Allinvoo` branch: read the
current total; if zero reply "Nothing to invest yet" (writing nothing);
otherwise `archive_user_entries` and report the moved amount and the new
history total. -/
def handleAllinvoo (st : DbState) (user_id : String) (now : String) :
    DbState × AllinvooReply :=
  let current := total_cents st user_id
  if current = 0 then (st, .nothingToInvest)
  else
    match archive_user_entries st user_id now with
    | .ok (st2, moved) => (st2, .invested moved (history_total_cents st2 user_id))
    | .error e => (st, .storeFailed e)

/-- Rust `i64::clamp(min, max)` (with `min ≤ max`). -/
def clampI (x lo hi : Int) : Int :=
  if x < lo then lo else if x > hi then hi else x

/-- src/main.rs `handle_command`, `Command::Query` branch, the limit
computation: `args.trim().parse::<i64>().unwrap_or(10).clamp(1, 50)`. -/
def queryLimit (args : String) : Int :=
  clampI ((parseI64 (trimChars args.toList)).getD 10) 1 50

example : queryLimit "" = 10 := by rfl
example : queryLimit "  7 " = 7 := by rfl
example : queryLimit "999" = 50 := by rfl
example : queryLimit "-3" = 1 := by rfl
example : queryLimit "lots" = 10 := by rfl

/- ### Two concurrent `/allinvoo` handlers (spec §5, claim about concurrency)

The `Allinvoo` branch performs two store round trips: the balance read
(`total_cents`) and the archive itself.  Suspension happens only at those
round trips, so a run of two concurrent handlers for the same user is an
interleaving of these steps; the archive step itself is atomic (spec §4.4). -/

/-- Final reply of one `/allinvoo` task in the interleaving model.
`archiveFailed e` is the propagated error of an `archive_user_entries`
call whose internal balance read saw zero. -/
inductive ArchOutcome where
  | nothingMsg
  | invested (moved : Int)
  | archiveFailed (e : CoreErr)
  deriving DecidableEq, Repr

/-- Program counter and observations of one `/allinvoo` handler task:
`pc = 0` before the balance read, `pc = 1` between the read and the
archive decision, `pc = 2` finished. -/
structure ArchTask where
  pc : Nat
  readVal : Int
  result : Option ArchOutcome
  deriving DecidableEq, Repr

/-- One atomic store round trip of an `/allinvoo` handler task: first the
balance read (src/main.rs:166), then the zero check and, when nonzero, the
atomic archive call (src/main.rs:167-174). -/
def stepAllinvoo (db : DbState) (user_id now : String) (t : ArchTask) :
    DbState × ArchTask :=
  if t.pc = 0 then (db, { t with pc := 1, readVal := total_cents db user_id })
  else if t.pc = 1 then
    if t.readVal = 0 then (db, { t with pc := 2, result := some .nothingMsg })
    else
      match archive_user_entries db user_id now with
      | .ok (db2, moved) => (db2, { t with pc := 2, result := some (.invested moved) })
      | .error e => (db, { t with pc := 2, result := some (.archiveFailed e) })
  else (db, t)

/-- Run two `/allinvoo` handler tasks for the same user under a schedule:
`true` steps task 1, `false` steps task 2. -/
def runTwoAllinvoo (user_id now1 now2 : String) :
    DbState → ArchTask → ArchTask → List Bool → DbState × ArchTask × ArchTask
  | db, t1, t2, [] => (db, t1, t2)
  | db, t1, t2, b :: bs =>
    if b then
      runTwoAllinvoo user_id now1 now2
        (stepAllinvoo db user_id now1 t1).1 (stepAllinvoo db user_id now1 t1).2 t2 bs
    else
      runTwoAllinvoo user_id now1 now2
        (stepAllinvoo db user_id now2 t2).1 t1 (stepAllinvoo db user_id now2 t2).2 bs

/-- A task that has not started. -/
def initTask : ArchTask := ⟨0, 0, none⟩

/-- The complete schedules of two two-step tasks: every interleaving in
which each task takes its read step and then its archive-decision step. -/
def allSchedules : List (List Bool) :=
  [[true, true, false, false], [true, false, true, false], [true, false, false, true],
   [false, true, true, false], [false, true, false, true], [false, false, true, true]]

/- ### Sequences of committed `add_entry` calls (claim about balances) -/

/-- The data of one committed `add_entry` call for a fixed user. -/
structure EntryCall where
  amount_cents : Int
  kind : String
  reason : Option String
  created_at : String
  deriving DecidableEq, Repr

/-- Apply a finite sequence of committed `add_entry` calls for one user. -/
def applyCalls (st : DbState) (user_id : String) (calls : List EntryCall) : DbState :=
  calls.foldl
    (fun s c => add_entry s user_id c.amount_cents c.kind c.reason c.created_at) st

/- ### Concrete states and inputs used by the witness theorems -/

/-- The freshly initialised database: both tables empty. -/
def dbEmpty : DbState := ⟨[], []⟩

/-- A database holding one saved entry of 500 cents for user `"u"`. -/
def dbOneSave : DbState := ⟨[], [⟨"u", 500, "save", none, "t0"⟩]⟩

/-- The database after user 7 was registered with id `"idA"`. -/
def userDbA : DbState := ⟨[⟨"idA", 7, some "ann", "Ann", none, "t1"⟩], []⟩

/-- Two committed calls: save 100 cents, then adjust by -30 cents. -/
def callsDemo : List EntryCall :=
  [⟨100, "save", none, "t1"⟩, ⟨-30, "adjust", some "x", "t2"⟩]

/-- The decimal digits of `2^63`, the least whole part that no longer fits
in an `i64`. -/
def bigWhole : List Char := "9223372036854775808".toList

/- ### Basic lemmas about the store -/

lemma total_cents_add_entry (st : DbState) (u uid : String) (a : Int) (k : String)
    (r : Option String) (n : String) :
    total_cents (add_entry st uid a k r n) u
      = total_cents st u + (if uid = u then a else 0) := by
  unfold total_cents add_entry
  by_cases h : uid = u <;>
    simp [List.filter_append, h]

lemma history_total_add_entry (st : DbState) (u uid : String) (a : Int) (k : String)
    (r : Option String) (n : String) :
    history_total_cents (add_entry st uid a k r n) u
      = history_total_cents st u + (if uid = u ∧ k = "archive" then |a| else 0) := by
  unfold history_total_cents add_entry
  by_cases h1 : uid = u <;> by_cases h2 : k = "archive" <;>
    simp [List.filter_append, h1, h2]

lemma archive_user_entries_of_ne (st : DbState) (u now : String)
    (h : total_cents st u ≠ 0) :
    archive_user_entries st u now
      = .ok (add_entry st u (-(total_cents st u)) "archive" none now, |total_cents st u|) := by
  unfold archive_user_entries
  simp [h]

lemma archive_user_entries_of_zero (st : DbState) (u now : String)
    (h : total_cents st u = 0) :
    archive_user_entries st u now = .error .nothingToArchive := by
  unfold archive_user_entries
  simp [h]

lemma total_cents_after_archive (st : DbState) (u now : String) :
    total_cents (add_entry st u (-(total_cents st u)) "archive" none now) u = 0 := by
  rw [total_cents_add_entry]
  simp

lemma history_total_after_archive (st : DbState) (u now : String) :
    history_total_cents (add_entry st u (-(total_cents st u)) "archive" none now) u
      = history_total_cents st u + |total_cents st u| := by
  rw [history_total_add_entry]
  simp

/- ### Character and list helper lemmas -/

lemma dropWhile_eq_self_of_all {p : Char → Bool} :
    ∀ l : List Char, (∀ c ∈ l, p c = false) → l.dropWhile p = l
  | [], _ => rfl
  | a :: l, h => by
    simp [List.dropWhile_cons, h a (by simp)]

lemma takeWhile_eq_self_of_all {p : Char → Bool} :
    ∀ l : List Char, (∀ c ∈ l, p c = true) → l.takeWhile p = l
  | [], _ => rfl
  | a :: l, h => by
    simp [List.takeWhile_cons, h a (by simp),
      takeWhile_eq_self_of_all l (fun c hc => h c (by simp [hc]))]

lemma dropWhile_keeps_last {p : Char → Bool} (c : Char) (hc : p c = false) :
    ∀ l : List Char, ∃ m, (l ++ [c]).dropWhile p = m ++ [c]
  | [] => ⟨[], by simp [List.dropWhile_cons, hc]⟩
  | a :: l => by
    by_cases ha : p a
    · obtain ⟨m, hm⟩ := dropWhile_keeps_last c hc l
      exact ⟨m, by simp [List.dropWhile_cons, ha, hm]⟩
    · exact ⟨a :: l, by simp [List.dropWhile_cons, ha]⟩

lemma trimChars_eq_self (l : List Char) (h : ∀ c ∈ l, Char.isWhitespace c = false) :
    trimChars l = l := by
  unfold trimChars
  rw [dropWhile_eq_self_of_all l h,
      dropWhile_eq_self_of_all l.reverse (fun c hc => h c (List.mem_reverse.1 hc)),
      List.reverse_reverse]

lemma trimChars_cons_of_not_ws (c : Char) (h : Char.isWhitespace c = false)
    (l : List Char) : ∃ r, trimChars (c :: l) = c :: r := by
  unfold trimChars
  rw [show (c :: l).dropWhile Char.isWhitespace = c :: l by
        simp [List.dropWhile_cons, h]]
  obtain ⟨m, hm⟩ := dropWhile_keeps_last c h l.reverse
  rw [List.reverse_cons, hm]
  exact ⟨m.reverse, by simp⟩

lemma not_ws_of_isDigit (c : Char) (h : c.isDigit = true) : c.isWhitespace = false := by
  cases hw : c.isWhitespace with
  | false => rfl
  | true =>
    exfalso
    simp only [Char.isWhitespace, Bool.or_eq_true, decide_eq_true_eq] at hw
    rcases hw with ((h1 | h1) | h1) | h1 <;> subst h1 <;> exact absurd h (by decide)

lemma digit_ne (c : Char) (h : c.isDigit = true) (d : Char) (hd : d.isDigit = false) :
    c ≠ d := by
  intro e
  rw [e, hd] at h
  exact Bool.false_ne_true h

lemma digit_not_sign (c : Char) (h : c.isDigit = true) :
    (c == '+' || c == '-') = false := by
  have h1 : c ≠ '+' := digit_ne c h '+' (by decide)
  have h2 : c ≠ '-' := digit_ne c h '-' (by decide)
  simp [h1, h2]

lemma splitOnDot_eq_single (l : List Char) (h : ∀ c ∈ l, c ≠ '.') :
    splitOnDot l = [l] := by
  induction l with
  | nil => rfl
  | cons a l ih =>
    rw [splitOnDot]
    simp [h a (by simp), ih (fun c hc => h c (by simp [hc]))]

lemma find?_append_of_none {α} (p : α → Bool) (l1 l2 : List α)
    (h : l1.find? p = none) : (l1 ++ l2).find? p = l2.find? p := by
  induction l1 with
  | nil => rfl
  | cons a l ih =>
    cases hpa : p a with
    | true => rw [List.find?_cons, hpa] at h; cases h
    | false =>
      rw [List.find?_cons, hpa] at h
      rw [List.cons_append, List.find?_cons, hpa]
      exact ih h

lemma map_comma_id (l : List Char) (h : ∀ c ∈ l, c.isDigit = true) :
    l.map (fun c => if c == ',' then '.' else c) = l := by
  induction l with
  | nil => rfl
  | cons a l ih =>
    have ha : (a == ',') = false := by
      simp [digit_ne a (h a (by simp)) ',' (by decide)]
    rw [List.map_cons, ih (fun c hc => h c (by simp [hc]))]
    simp [ha]

lemma matchUnsigned_none_of_head_not_digit (c : Char) (r : List Char)
    (h : c.isDigit = false) : matchUnsigned (c :: r) = none := by
  unfold matchUnsigned
  simp [List.takeWhile_cons, h]

lemma matchUnsigned_all_digits (w : List Char) (h1 : w ≠ [])
    (h2 : ∀ c ∈ w, c.isDigit = true) : matchUnsigned w = some (w, []) := by
  unfold matchUnsigned
  rw [takeWhile_eq_self_of_all w h2, if_neg h1, List.drop_length]
  simp [fracTake]

lemma parseI64_all_digits (w : List Char) (h1 : w ≠ [])
    (h2 : ∀ c ∈ w, c.isDigit = true) :
    parseI64 w
      = (if (digitsVal w : Int) ≤ 2 ^ 63 - 1 then some (digitsVal w : Int) else none) := by
  cases w with
  | nil => exact absurd rfl h1
  | cons c rest =>
    have hc := h2 c (by simp)
    have hsign : (c == '-' || c == '+') = false := by
      have h3 : c ≠ '-' := digit_ne c hc '-' (by decide)
      have h4 : c ≠ '+' := digit_ne c hc '+' (by decide)
      simp [h3, h4]
    have hneg : (c == '-') = false := by
      have h3 : c ≠ '-' := digit_ne c hc '-' (by decide)
      simp [h3]
    unfold parseI64
    dsimp only
    rw [hsign, hneg]
    simp [List.all_eq_true.2 (fun x hx => h2 x hx)]

lemma decimal_to_cents_overflowing_whole (w : List Char) (h1 : w ≠ [])
    (h2 : ∀ c ∈ w, c.isDigit = true) (h3 : 2 ^ 63 ≤ (digitsVal w : Int)) :
    decimal_to_cents w = .error .intParseError := by
  unfold decimal_to_cents
  rw [dropWhile_eq_self_of_all w (fun c hc => digit_not_sign c (h2 c hc))]
  dsimp only
  rw [splitOnDot_eq_single w (fun c hc => digit_ne c (h2 c hc) '.' (by decide))]
  dsimp only
  rw [parseI64_all_digits w h1 h2, if_neg (by omega)]

/- ### Step lemmas for the two-task `/allinvoo` interleaving model -/

lemma stepAllinvoo_read (db : DbState) (u now : String) (rv : Int)
    (res : Option ArchOutcome) :
    stepAllinvoo db u now ⟨0, rv, res⟩ = (db, ⟨1, total_cents db u, res⟩) := rfl

lemma stepAllinvoo_nothing (db : DbState) (u now : String) (res : Option ArchOutcome) :
    stepAllinvoo db u now ⟨1, 0, res⟩ = (db, ⟨2, 0, some .nothingMsg⟩) := rfl

lemma stepAllinvoo_archive (db : DbState) (u now : String) (rv : Int)
    (res : Option ArchOutcome) (hrv : rv ≠ 0) (hb : total_cents db u ≠ 0) :
    stepAllinvoo db u now ⟨1, rv, res⟩
      = (add_entry db u (-(total_cents db u)) "archive" none now,
         ⟨2, rv, some (.invested |total_cents db u|)⟩) := by
  unfold stepAllinvoo
  rw [archive_user_entries_of_ne db u now hb]
  simp [hrv]

lemma stepAllinvoo_archive_fail (db : DbState) (u now : String) (rv : Int)
    (res : Option ArchOutcome) (hrv : rv ≠ 0) (hb : total_cents db u = 0) :
    stepAllinvoo db u now ⟨1, rv, res⟩
      = (db, ⟨2, rv, some (.archiveFailed .nothingToArchive)⟩) := by
  unfold stepAllinvoo
  rw [archive_user_entries_of_zero db u now hb]
  simp [hrv]

lemma runTwo_nil (u now1 now2 : String) (db : DbState) (t1 t2 : ArchTask) :
    runTwoAllinvoo u now1 now2 db t1 t2 [] = (db, t1, t2) := rfl

lemma runTwo_cons_true (u now1 now2 : String) (db : DbState) (t1 t2 : ArchTask)
    (bs : List Bool) :
    runTwoAllinvoo u now1 now2 db t1 t2 (true :: bs)
      = runTwoAllinvoo u now1 now2
          (stepAllinvoo db u now1 t1).1 (stepAllinvoo db u now1 t1).2 t2 bs := rfl

lemma runTwo_cons_false (u now1 now2 : String) (db : DbState) (t1 t2 : ArchTask)
    (bs : List Bool) :
    runTwoAllinvoo u now1 now2 db t1 t2 (false :: bs)
      = runTwoAllinvoo u now1 now2
          (stepAllinvoo db u now2 t2).1 t1 (stepAllinvoo db u now2 t2).2 bs := rfl

/- ### Claim theorems -/

/-- C1: for every user with current balance B > 0, a successful archive
returns `moved_cents = B`; afterwards the current balance is 0, the history
total has increased by exactly B, the grand total is unchanged, and a
second immediate archive fails with `NothingToArchive`. -/
theorem archive_postconditions (st : DbState) (u now now2 : String)
    (h : 0 < total_cents st u) :
    ∃ st2 : DbState,
      archive_user_entries st u now = .ok (st2, total_cents st u) ∧
      handleAllinvoo st u now
        = (st2, .invested (total_cents st u) (history_total_cents st2 u)) ∧
      total_cents st2 u = 0 ∧
      history_total_cents st2 u = history_total_cents st u + total_cents st u ∧
      grand_total st2 u = grand_total st u ∧
      archive_user_entries st2 u now2 = .error .nothingToArchive := by
  have hne : total_cents st u ≠ 0 := ne_of_gt h
  refine ⟨add_entry st u (-(total_cents st u)) "archive" none now, ?_, ?_, ?_, ?_, ?_, ?_⟩
  · rw [archive_user_entries_of_ne st u now hne, abs_of_pos h]
  · unfold handleAllinvoo
    rw [if_neg hne, archive_user_entries_of_ne st u now hne, abs_of_pos h]
  · exact total_cents_after_archive st u now
  · rw [history_total_after_archive, abs_of_pos h]
  · unfold grand_total
    rw [total_cents_after_archive, history_total_after_archive, abs_of_pos h]
    ring
  · exact archive_user_entries_of_zero _ u now2 (total_cents_after_archive st u now)

/-- C1 witness: the postconditions evaluated on a concrete one-entry
database with balance 500. -/
theorem archive_postconditions_witness :
    0 < total_cents dbOneSave "u" ∧
    (∃ st2 : DbState,
      archive_user_entries dbOneSave "u" "t1" = .ok (st2, total_cents dbOneSave "u") ∧
      handleAllinvoo dbOneSave "u" "t1"
        = (st2, .invested (total_cents dbOneSave "u") (history_total_cents st2 "u")) ∧
      total_cents st2 "u" = 0 ∧
      history_total_cents st2 "u"
        = history_total_cents dbOneSave "u" + total_cents dbOneSave "u" ∧
      grand_total st2 "u" = grand_total dbOneSave "u" ∧
      archive_user_entries st2 "u" "t2" = .error .nothingToArchive) :=
  ⟨by decide, archive_postconditions dbOneSave "u" "t1" "t2" (by decide)⟩

/-- C3: the save branch rejects every non-positive amount and the adjust
branch rejects a zero delta, each as an `InvalidEntry` rejection that
writes nothing; in particular a zero adjust and a -5 save always fail. -/
theorem add_entry_rejects_invalid (st : DbState) (u : String) (amount : Int)
    (reason : Option String) (now : String) :
    (amount ≤ 0 → handleSave st u amount reason now = (st, .invalidEntry)) ∧
    handleAdjust st u 0 reason now = (st, .invalidEntry) ∧
    handleSave st u (-5) reason now = (st, .invalidEntry) := by
  refine ⟨fun h => ?_, ?_, ?_⟩
  · unfold handleSave
    rw [if_pos h]
  · unfold handleAdjust
    rw [if_pos rfl]
  · unfold handleSave
    rw [if_pos (by norm_num)]

/-- C3 witness: the rejections evaluated on the empty database. -/
theorem add_entry_rejects_invalid_witness :
    (-5 : Int) ≤ 0 ∧
    handleSave dbEmpty "u" (-5) none "t" = (dbEmpty, .invalidEntry) ∧
    handleAdjust dbEmpty "u" 0 none "t" = (dbEmpty, .invalidEntry) :=
  ⟨by norm_num,
   (add_entry_rejects_invalid dbEmpty "u" (-5) none "t").1 (by norm_num),
   (add_entry_rejects_invalid dbEmpty "u" (-5) none "t").2.1⟩

lemma total_cents_applyCalls (u : String) (calls : List EntryCall) (st : DbState) :
    total_cents (applyCalls st u calls) u
      = total_cents st u + (calls.map EntryCall.amount_cents).sum := by
  induction calls generalizing st with
  | nil => simp [applyCalls]
  | cons c cs ih =>
    have hstep : applyCalls st u (c :: cs)
        = applyCalls (add_entry st u c.amount_cents c.kind c.reason c.created_at) u cs := rfl
    rw [hstep, ih, total_cents_add_entry]
    simp
    ring

/-- C4: after any finite sequence of committed `add_entry` calls for one
user, the current balance equals the exact signed sum of the appended
`amount_cents` values, and a user with no entries has balance 0. -/
theorem current_balance_is_signed_sum (u : String) (calls : List EntryCall)
    (st : DbState) :
    total_cents (applyCalls st u calls) u
      = total_cents st u + (calls.map EntryCall.amount_cents).sum ∧
    ((∀ e ∈ st.entries, e.user_id ≠ u) → total_cents st u = 0) := by
  refine ⟨total_cents_applyCalls u calls st, fun h => ?_⟩
  unfold total_cents
  rw [show st.entries.filter (fun e => e.user_id == u) = [] by
        rw [List.filter_eq_nil_iff]
        intro e he
        simp [h e he]]
  rfl

/-- C4 witness: 100 - 30 = 70 from the empty database. -/
theorem current_balance_is_signed_sum_witness :
    total_cents (applyCalls dbEmpty "u" callsDemo) "u"
      = total_cents dbEmpty "u" + (callsDemo.map EntryCall.amount_cents).sum ∧
    total_cents dbEmpty "u" = 0 :=
  ⟨(current_balance_is_signed_sum "u" callsDemo dbEmpty).1,
   (current_balance_is_signed_sum "u" callsDemo dbEmpty).2 (by simp [dbEmpty])⟩

/-- C5: with balance 0, the `/allinvoo` handler replies
"nothing to invest" and leaves the state untouched, and the archive
operation itself fails with `NothingToArchive` writing nothing. -/
theorem archive_noop_on_zero_balance (st : DbState) (u now : String)
    (h : total_cents st u = 0) :
    handleAllinvoo st u now = (st, .nothingToInvest) ∧
    archive_user_entries st u now = .error .nothingToArchive := by
  constructor
  · unfold handleAllinvoo
    rw [if_pos h]
  · exact archive_user_entries_of_zero st u now h

/-- C5 witness: the no-op evaluated on the empty database. -/
theorem archive_noop_on_zero_balance_witness :
    total_cents dbEmpty "u" = 0 ∧
    handleAllinvoo dbEmpty "u" "t" = (dbEmpty, .nothingToInvest) ∧
    archive_user_entries dbEmpty "u" "t" = .error .nothingToArchive :=
  ⟨rfl, archive_noop_on_zero_balance dbEmpty "u" "t" rfl⟩

lemma clampI_range (x lo hi : Int) (h : lo ≤ hi) :
    lo ≤ clampI x lo hi ∧ clampI x lo hi ≤ hi := by
  unfold clampI
  split_ifs <;> omega

/-- C10: the `/query` entry limit always lies in [1, 50]: a non-integer
argument (including the empty string) yields 10, and a parsed integer is
clamped into [1, 50]. -/
theorem query_limit_in_range (args : String) :
    (1 ≤ queryLimit args ∧ queryLimit args ≤ 50) ∧
    (parseI64 (trimChars args.toList) = none → queryLimit args = 10) ∧
    (∀ n : Int, parseI64 (trimChars args.toList) = some n →
      queryLimit args = clampI n 1 50) := by
  refine ⟨?_, fun h => ?_, fun n h => ?_⟩
  · exact clampI_range _ 1 50 (by norm_num)
  · unfold queryLimit
    rw [h]
    rfl
  · unfold queryLimit
    rw [h]
    rfl

/-- C10 witness: a clamped, an out-of-range and a non-numeric argument. -/
theorem query_limit_in_range_witness :
    (1 ≤ queryLimit "999" ∧ queryLimit "999" ≤ 50) ∧ queryLimit "lots" = 10 :=
  ⟨(query_limit_in_range "999").1, (query_limit_in_range "lots").2.1 (by rfl)⟩

/-- C2 (evaluation at the spec's worked examples): the first four examples
hold, but `parse_amount("12.345", false)` does not fail — the regex only
captures two fractional digits, so it returns `(1234, note "5")`, even
though `decimal_to_cents` has its own (here unreachable) rejection of more
than two decimal places. -/
theorem parse_amount_worked_examples_eval :
    parse_amount_and_reason "12" false = .ok (1200, none) ∧
    parse_amount_and_reason "12.3" false = .ok (1230, none) ∧
    parse_amount_and_reason "-3.50" true = .ok (-350, none) ∧
    parse_amount_and_reason "5 lunch" false = .ok (500, some "lunch") ∧
    parse_amount_and_reason "12.345" false = .ok (1234, some "5") :=
  ⟨rfl, rfl, rfl, rfl, rfl⟩

/-- C6 counterexample: an input with a leading sign fails with exactly the
same generic "Bad amount format" error that any malformed amount (here
`"abc"`) produces — there is no sign-specific `SignNotAllowed` error in the
code. -/
theorem sign_error_not_specific :
    parse_amount_and_reason "+5" false = .error .badAmountFormat ∧
    parse_amount_and_reason "abc" false = .error .badAmountFormat :=
  ⟨rfl, rfl⟩

/-- C6 amended: every input beginning with `+` or `-` does fail under
`allow_signed = false`, but with the generic "Bad amount format" error used
for all malformed amounts, not a distinct sign-specific error. -/
theorem sign_rejected_with_generic_error (input : String)
    (h : input.toList.head? = some '+' ∨ input.toList.head? = some '-') :
    parse_amount_and_reason input false = .error .badAmountFormat := by
  obtain ⟨c, l, hcl, hc⟩ : ∃ c l, input.toList = c :: l ∧ (c = '+' ∨ c = '-') := by
    cases hL : input.toList with
    | nil => rw [hL] at h; simp at h
    | cons a as =>
      rw [hL] at h
      simp only [List.head?_cons, Option.some.injEq] at h
      exact ⟨a, as, rfl, h⟩
  have hws : c.isWhitespace = false := by rcases hc with rfl | rfl <;> rfl
  have hdg : c.isDigit = false := by rcases hc with rfl | rfl <;> rfl
  obtain ⟨r, hr⟩ := trimChars_cons_of_not_ws c hws l
  unfold parse_amount_and_reason
  rw [hcl, hr]
  rw [if_neg (by simp : ¬(c :: r = []))]
  have hm : (if false then matchSigned (c :: r) else matchUnsigned (c :: r)) = none := by
    rw [if_neg (by simp), matchUnsigned_none_of_head_not_digit c r hdg]
  rw [hm]

/-- C6 amended witness: the sign rejection evaluated at `"+5"`. -/
theorem sign_rejected_with_generic_error_witness :
    ("+5".toList.head? = some '+' ∨ "+5".toList.head? = some '-') ∧
    parse_amount_and_reason "+5" false = .error .badAmountFormat :=
  ⟨Or.inl rfl, sign_rejected_with_generic_error "+5" (Or.inl rfl)⟩

/-- C7 counterexample: `"92233720368547758.08"` has a cent value of exactly
`2^63`, one past `i64::MAX`; instead of failing with an overflow error the
conversion wraps and parse_amount returns the wrong (negative) value
`-2^63`.  (In a debug build the unchecked addition would panic instead;
either way there is no `AmountOverflow` failure.) -/
theorem amount_overflow_wraps :
    parse_amount_and_reason "92233720368547758.08" false
      = .ok (-9223372036854775808, none) := rfl

/-- C7 amended: a whole part that itself exceeds the `i64` range fails with
the generic propagated integer-parse error (not a dedicated
`AmountOverflow`), while a cent value that overflows only during the
`* 100 + frac` conversion wraps around and is returned as a wrong value. -/
theorem amount_overflow_behavior :
    (∀ w : List Char, w ≠ [] → (∀ c ∈ w, c.isDigit = true) →
        2 ^ 63 ≤ (digitsVal w : Int) →
        parse_amount_and_reason (String.mk w) false = .error .intParseError) ∧
    parse_amount_and_reason "92233720368547758.08" false
      = .ok (-9223372036854775808, none) := by
  constructor
  · intro w h1 h2 h3
    have hs : (String.mk w).toList = w := rfl
    unfold parse_amount_and_reason
    rw [hs, trimChars_eq_self w (fun c hc => not_ws_of_isDigit c (h2 c hc))]
    rw [if_neg h1]
    have hm : (if false then matchSigned w else matchUnsigned w) = some (w, []) := by
      rw [if_neg (by simp), matchUnsigned_all_digits w h1 h2]
    rw [hm]
    dsimp only
    rw [map_comma_id w h2]
    rw [decimal_to_cents_overflowing_whole w h1 h2 h3]
  · exact rfl

/-- C7 amended witness: the whole part `2^63` fails with the generic
integer-parse error. -/
theorem amount_overflow_behavior_witness :
    parse_amount_and_reason (String.mk bigWhole) false = .error .intParseError :=
  amount_overflow_behavior.1 bigWhole (by decide) (by decide) (by decide)

/-- C8 counterexample: the interleaving SELECT₁ SELECT₂ INSERT₁ INSERT₂ of
two concurrent first-contact `ensure_user` calls for external id 7.  Both
selects see no row, the first insert wins, and the second insert hits the
`tg_user_id UNIQUE` constraint: the losing call returns an error (there is
no re-read in the code), not the winner's user id. -/
theorem ensure_user_race_loser_errors :
    selectUser dbEmpty 7 = none ∧
    insertUser dbEmpty 7 (some "ann") "Ann" none "idA" "t1" = .ok userDbA ∧
    insertUser userDbA 7 (some "ann") "Ann" none "idB" "t2" = .error .uniqueViolation :=
  ⟨rfl, rfl, rfl⟩

/-- C8 amended: `ensure_user` is idempotent per external id for sequential
calls — once a call has succeeded, any later call with the same external id
returns the same user id and leaves the stored rows (display metadata
included) unchanged; under a concurrent first-contact race the losing
INSERT instead fails with a uniqueness-violation error. -/
theorem ensure_user_idempotent (st st2 : DbState) (tg : Int)
    (u1 : Option String) (f1 : String) (l1 : Option String) (id1 t1 : String)
    (u2 : Option String) (f2 : String) (l2 : Option String) (id2 t2 : String)
    (rid : String)
    (h : ensure_user st tg u1 f1 l1 id1 t1 = .ok (st2, rid)) :
    ensure_user st2 tg u2 f2 l2 id2 t2 = .ok (st2, rid) := by
  unfold ensure_user at h ⊢
  cases hsel : selectUser st tg with
  | some i =>
    rw [hsel] at h
    simp only [Except.ok.injEq, Prod.mk.injEq] at h
    obtain ⟨rfl, rfl⟩ := h
    rw [hsel]
  | none =>
    rw [hsel] at h
    cases hins : insertUser st tg u1 f1 l1 id1 t1 with
    | error e => rw [hins] at h; cases h
    | ok stI =>
      rw [hins] at h
      simp only [Except.ok.injEq, Prod.mk.injEq] at h
      obtain ⟨rfl, rfl⟩ := h
      unfold insertUser at hins
      by_cases hany : st.users.any (fun r => r.tg_user_id == tg || r.id == id1)
      · rw [if_pos hany] at hins; cases hins
      · rw [if_neg hany] at hins
        simp only [Except.ok.injEq] at hins
        have hfind : st.users.find? (fun r => r.tg_user_id == tg) = none := by
          unfold selectUser at hsel
          exact Option.map_eq_none'.1 hsel
        have hsel2 : selectUser stI tg = some id1 := by
          unfold selectUser
          rw [← hins]
          simp only
          rw [find?_append_of_none _ _ _ hfind]
          simp [List.find?_cons]
        rw [hsel2]

/-- C8 amended witness: after registering external id 7 as `"idA"` from the
empty database, a second call with different metadata and a different
candidate id returns the same id and the same state. -/
theorem ensure_user_idempotent_witness :
    ensure_user dbEmpty 7 (some "ann") "Ann" none "idA" "t1" = .ok (userDbA, "idA") ∧
    ensure_user userDbA 7 (some "bob") "Bob" (some "B") "idB" "t2" = .ok (userDbA, "idA") :=
  ⟨rfl,
   ensure_user_idempotent dbEmpty userDbA 7 (some "ann") "Ann" none "idA" "t1"
     (some "bob") "Bob" (some "B") "idB" "t2" "idA" rfl⟩

lemma stepAllinvoo_init (db : DbState) (u now : String) :
    stepAllinvoo db u now initTask = (db, ⟨1, total_cents db u, none⟩) := rfl

/-- C9: under every interleaving of two concurrent `/allinvoo` handlers for
the same user with balance B > 0 (each handler being its balance read
followed by its zero check / atomic archive), exactly one task invests
exactly B and the other ends in a `NothingToArchive` outcome (either the
pre-check reply or an archive failure), and the final balance is 0 — never
two successful archives, never a negative balance. -/
theorem concurrent_archive_exactly_one (st : DbState) (u now1 now2 : String)
    (sched : List Bool) (hs : sched ∈ allSchedules) (hb : 0 < total_cents st u) :
    total_cents (runTwoAllinvoo u now1 now2 st initTask initTask sched).1 u = 0 ∧
    (((runTwoAllinvoo u now1 now2 st initTask initTask sched).2.1.result
        = some (.invested (total_cents st u)) ∧
      ((runTwoAllinvoo u now1 now2 st initTask initTask sched).2.2.result
          = some .nothingMsg ∨
       (runTwoAllinvoo u now1 now2 st initTask initTask sched).2.2.result
          = some (.archiveFailed .nothingToArchive))) ∨
     ((runTwoAllinvoo u now1 now2 st initTask initTask sched).2.2.result
        = some (.invested (total_cents st u)) ∧
      ((runTwoAllinvoo u now1 now2 st initTask initTask sched).2.1.result
          = some .nothingMsg ∨
       (runTwoAllinvoo u now1 now2 st initTask initTask sched).2.1.result
          = some (.archiveFailed .nothingToArchive)))) := by
  have hne : total_cents st u ≠ 0 := ne_of_gt hb
  have habs : |total_cents st u| = total_cents st u := abs_of_pos hb
  simp only [allSchedules, List.mem_cons, List.not_mem_nil, or_false] at hs
  rcases hs with rfl | rfl | rfl | rfl | rfl | rfl
  · -- T T F F : task 1 reads and archives, task 2 then reads 0
    rw [runTwo_cons_true, stepAllinvoo_init]
    dsimp only
    rw [runTwo_cons_true, stepAllinvoo_archive st u now1 _ none hne hne, habs]
    dsimp only
    rw [runTwo_cons_false, stepAllinvoo_init]
    dsimp only
    rw [total_cents_after_archive]
    rw [runTwo_cons_false, stepAllinvoo_nothing, runTwo_nil]
    dsimp only
    exact ⟨total_cents_after_archive st u now1, Or.inl ⟨rfl, Or.inl rfl⟩⟩
  · -- T F T F : both read B, task 1 archives, task 2's archive fails
    rw [runTwo_cons_true, stepAllinvoo_init]
    dsimp only
    rw [runTwo_cons_false, stepAllinvoo_init]
    dsimp only
    rw [runTwo_cons_true, stepAllinvoo_archive st u now1 _ none hne hne, habs]
    dsimp only
    rw [runTwo_cons_false,
        stepAllinvoo_archive_fail _ u now2 _ none hne (total_cents_after_archive st u now1),
        runTwo_nil]
    dsimp only
    exact ⟨total_cents_after_archive st u now1, Or.inl ⟨rfl, Or.inr rfl⟩⟩
  · -- T F F T : both read B, task 2 archives, task 1's archive fails
    rw [runTwo_cons_true, stepAllinvoo_init]
    dsimp only
    rw [runTwo_cons_false, stepAllinvoo_init]
    dsimp only
    rw [runTwo_cons_false, stepAllinvoo_archive st u now2 _ none hne hne, habs]
    dsimp only
    rw [runTwo_cons_true,
        stepAllinvoo_archive_fail _ u now1 _ none hne (total_cents_after_archive st u now2),
        runTwo_nil]
    dsimp only
    exact ⟨total_cents_after_archive st u now2, Or.inr ⟨rfl, Or.inr rfl⟩⟩
  · -- F T T F : both read B, task 1 archives, task 2's archive fails
    rw [runTwo_cons_false, stepAllinvoo_init]
    dsimp only
    rw [runTwo_cons_true, stepAllinvoo_init]
    dsimp only
    rw [runTwo_cons_true, stepAllinvoo_archive st u now1 _ none hne hne, habs]
    dsimp only
    rw [runTwo_cons_false,
        stepAllinvoo_archive_fail _ u now2 _ none hne (total_cents_after_archive st u now1),
        runTwo_nil]
    dsimp only
    exact ⟨total_cents_after_archive st u now1, Or.inl ⟨rfl, Or.inr rfl⟩⟩
  · -- F T F T : both read B, task 2 archives, task 1's archive fails
    rw [runTwo_cons_false, stepAllinvoo_init]
    dsimp only
    rw [runTwo_cons_true, stepAllinvoo_init]
    dsimp only
    rw [runTwo_cons_false, stepAllinvoo_archive st u now2 _ none hne hne, habs]
    dsimp only
    rw [runTwo_cons_true,
        stepAllinvoo_archive_fail _ u now1 _ none hne (total_cents_after_archive st u now2),
        runTwo_nil]
    dsimp only
    exact ⟨total_cents_after_archive st u now2, Or.inr ⟨rfl, Or.inr rfl⟩⟩
  · -- F F T T : task 2 reads and archives, task 1 then reads 0
    rw [runTwo_cons_false, stepAllinvoo_init]
    dsimp only
    rw [runTwo_cons_false, stepAllinvoo_archive st u now2 _ none hne hne, habs]
    dsimp only
    rw [runTwo_cons_true, stepAllinvoo_init]
    dsimp only
    rw [total_cents_after_archive]
    rw [runTwo_cons_true, stepAllinvoo_nothing, runTwo_nil]
    dsimp only
    exact ⟨total_cents_after_archive st u now2, Or.inr ⟨rfl, Or.inl rfl⟩⟩

/-- C9 witness: the schedule read₁ archive₁ read₂ check₂ evaluated on a
concrete database with balance 500. -/
theorem concurrent_archive_exactly_one_witness :
    ([true, true, false, false] ∈ allSchedules ∧ 0 < total_cents dbOneSave "u") ∧
    (total_cents (runTwoAllinvoo "u" "t1" "t2" dbOneSave initTask initTask
        [true, true, false, false]).1 "u" = 0 ∧
     (((runTwoAllinvoo "u" "t1" "t2" dbOneSave initTask initTask
          [true, true, false, false]).2.1.result
         = some (.invested (total_cents dbOneSave "u")) ∧
       ((runTwoAllinvoo "u" "t1" "t2" dbOneSave initTask initTask
           [true, true, false, false]).2.2.result = some .nothingMsg ∨
        (runTwoAllinvoo "u" "t1" "t2" dbOneSave initTask initTask
           [true, true, false, false]).2.2.result
          = some (.archiveFailed .nothingToArchive))) ∨
      ((runTwoAllinvoo "u" "t1" "t2" dbOneSave initTask initTask
          [true, true, false, false]).2.2.result
         = some (.invested (total_cents dbOneSave "u")) ∧
       ((runTwoAllinvoo "u" "t1" "t2" dbOneSave initTask initTask
           [true, true, false, false]).2.1.result = some .nothingMsg ∨
        (runTwoAllinvoo "u" "t1" "t2" dbOneSave initTask initTask
           [true, true, false, false]).2.1.result
          = some (.archiveFailed .nothingToArchive))))) :=
  ⟨⟨by decide, by decide⟩,
   concurrent_archive_exactly_one dbOneSave "u" "t1" "t2" [true, true, false, false]
     (by decide) (by decide)⟩
